import Mathlib

/-!
Verification of the view-lifecycle core of the stateful calling client
(`StreamUtils.ts`, `StatefulCallClient.ts`).

The registry (`InternalCallContext`) and state store (`CallContext`) are not
part of the sources; they are modelled from the spec as keyed maps
(association lists, mirroring insertion-ordered JS `Map`s).  The view
lifecycle functions (`createViewRemoteVideo`, `createViewLocalVideo`,
`createViewUnparentedVideo`, the `disposeView*` family, the `createView` /
`disposeView` dispatchers and `disposeAllViewsFromCall`) are translated from
`StreamUtils.ts` statement by statement.  Each async function has exactly one
suspension point (the external `renderer.createView` call), so it is split
into a pure `...Start` phase (everything before the `await`) and a pure
`...Finish` phase (everything after, parameterised by whether the external
call succeeded).  Renderer handles are modelled by `Nat` identifiers drawn
from an allocation counter; every `renderer.dispose()` call appends the
handle to `disposeLog`, so dispose counts are observable.
-/

/-- Lookup in an association list (first match), as a JS `Map.get`. -/
def lookupK {κ α : Type} [DecidableEq κ] (k : κ) : List (κ × α) → Option α
  | [] => none
  | (k', v) :: rest => if k' = k then some v else lookupK k rest

/-- Insert-or-replace in an association list, preserving insertion order, as a
JS `Map.set`. -/
def upsert {κ α : Type} [DecidableEq κ] (k : κ) (v : α) : List (κ × α) → List (κ × α)
  | [] => [(k, v)]
  | (k', v') :: rest => if k' = k then (k, v) :: rest else (k', v') :: upsert k v rest

/-- Remove a key from an association list, as a JS `Map.delete`. -/
def eraseK {κ α : Type} [DecidableEq κ] (k : κ) : List (κ × α) → List (κ × α)
  | [] => []
  | (k', v') :: rest => if k' = k then eraseK k rest else (k', v') :: eraseK k rest

/-- The keys of an association list. -/
def keysOf {κ α : Type} (l : List (κ × α)) : List κ :=
  l.map Prod.fst

/-- Status of a stream-to-renderer binding (`RenderInfo.status` in
`InternalCallContext`). -/
inductive RenderStatus
  | notRendered
  | rendering
  | rendered
  | stopping
deriving DecidableEq

/-- One registry entry: the SDK stream handle, the lifecycle status and the
optionally held renderer handle (`StreamRenderInfo` in the spec). -/
structure RenderInfo where
  stream : Nat
  status : RenderStatus
  renderer : Option Nat
deriving DecidableEq

/-- Modelled from the spec: the State Store (`CallContext`) substates touched
by the view lifecycle — the published renderer views, keyed like the
registry.  The setters below are modelled as unconditional upserts/erases;
the spec's no-op-when-target-absent refinement is not modelled since the
claims only concern the stored view values. -/
structure StateStore where
  remoteViews : List ((String × String × Nat) × Nat)
  localViews : List (String × Nat)
  unparentedViews : List (Nat × Nat)
deriving DecidableEq

/-- Modelled from the spec: the Registry (`InternalCallContext`) with its
three independent lookup structures, together with the State Store, a fresh
renderer allocator and the observable log of `renderer.dispose()` calls. -/
structure SysState where
  remoteReg : List ((String × String × Nat) × RenderInfo)
  localReg : List (String × RenderInfo)
  unparentedReg : List (Nat × RenderInfo)
  store : StateStore
  nextRenderer : Nat
  disposeLog : List Nat
deriving DecidableEq

/-- The state of a freshly constructed client: empty registries and store. -/
def emptyState : SysState :=
  { remoteReg := [], localReg := [], unparentedReg := []
    store := { remoteViews := [], localViews := [], unparentedViews := [] }
    nextRenderer := 0, disposeLog := [] }

/-- Modelled from the spec: `CallContext.setRemoteVideoStreamRendererView` —
publish (`some v`) or clear (`none`) the view at (callId, participantKey,
streamId). -/
def setRemoteVideoStreamRendererView (st : StateStore) (callId participantKey : String)
    (streamId : Nat) (v : Option Nat) : StateStore :=
  match v with
  | none => { st with remoteViews := eraseK (callId, participantKey, streamId) st.remoteViews }
  | some view => { st with remoteViews := upsert (callId, participantKey, streamId) view st.remoteViews }

/-- Modelled from the spec: `CallContext.setLocalVideoStreamRendererView`. -/
def setLocalVideoStreamRendererView (st : StateStore) (callId : String) (v : Option Nat) :
    StateStore :=
  match v with
  | none => { st with localViews := eraseK callId st.localViews }
  | some view => { st with localViews := upsert callId view st.localViews }

/-- Modelled from the spec: `CallContext.setDeviceManagerUnparentedView`. -/
def setDeviceManagerUnparentedView (st : StateStore) (streamKey : Nat) (view : Nat) :
    StateStore :=
  { st with unparentedViews := upsert streamKey view st.unparentedViews }

/-- Modelled from the spec: `CallContext.deleteDeviceManagerUnparentedView`. -/
def deleteDeviceManagerUnparentedView (st : StateStore) (streamKey : Nat) : StateStore :=
  { st with unparentedViews := eraseK streamKey st.unparentedViews }

/-- Result of the pre-suspension phase of a `createView*` function: either it
returned `undefined` before constructing a renderer, or it constructed a
renderer (recording its handle and the captured stream reference) and began
the suspending external `createView` call. -/
inductive StartResult
  | earlyReturn
  | started (renderer captured : Nat)
deriving DecidableEq

/-- `createViewRemoteVideo`, everything before `await renderer.createView`
(StreamUtils.ts lines 51-83): look up the render info; return on absent /
Rendered / Rendering / Stopping; otherwise construct a renderer and write
status Rendering with no renderer handle. -/
def createViewRemoteVideoStart (s : SysState) (callId participantKey : String)
    (streamId : Nat) : SysState × StartResult :=
  match lookupK (callId, participantKey, streamId) s.remoteReg with
  | none => (s, .earlyReturn)
  | some renderInfo =>
    if renderInfo.status = .rendered then (s, .earlyReturn)
    else if renderInfo.status = .rendering then (s, .earlyReturn)
    else if renderInfo.status = .stopping then (s, .earlyReturn)
    else
      let renderer := s.nextRenderer
      ({ s with
          remoteReg := upsert (callId, participantKey, streamId)
            { stream := renderInfo.stream, status := .rendering, renderer := none } s.remoteReg
          nextRenderer := s.nextRenderer + 1 },
        .started renderer renderInfo.stream)

/-- `createViewRemoteVideo`, everything after `await renderer.createView`
(StreamUtils.ts lines 82-137).  `ok` is whether the external call succeeded;
`renderer` and `capturedStream` are the values captured before the await.  On
failure: revert to NotRendered and rethrow.  On success: re-fetch the render
info; if absent, dispose the renderer and clear the view; if Stopping,
dispose the renderer, set NotRendered and clear the view; otherwise commit
Rendered with the handle and publish the view. -/
def createViewRemoteVideoFinish (s : SysState) (callId participantKey : String)
    (streamId renderer capturedStream : Nat) (ok : Bool) (view : Nat) :
    SysState × Except Unit (Option (Nat × Nat)) :=
  match ok with
  | false =>
    ({ s with
        remoteReg := upsert (callId, participantKey, streamId)
          { stream := capturedStream, status := .notRendered, renderer := none } s.remoteReg },
      .error ())
  | true =>
    match lookupK (callId, participantKey, streamId) s.remoteReg with
    | none =>
      ({ s with
          disposeLog := s.disposeLog ++ [renderer]
          store := setRemoteVideoStreamRendererView s.store callId participantKey streamId none },
        .ok none)
    | some refreshedRenderInfo =>
      if refreshedRenderInfo.status = .stopping then
        ({ s with
            disposeLog := s.disposeLog ++ [renderer]
            remoteReg := upsert (callId, participantKey, streamId)
              { stream := refreshedRenderInfo.stream, status := .notRendered, renderer := none }
              s.remoteReg
            store := setRemoteVideoStreamRendererView s.store callId participantKey streamId none },
          .ok none)
      else
        ({ s with
            remoteReg := upsert (callId, participantKey, streamId)
              { stream := refreshedRenderInfo.stream, status := .rendered, renderer := some renderer }
              s.remoteReg
            store := setRemoteVideoStreamRendererView s.store callId participantKey streamId (some view) },
          .ok (some (renderer, view)))

/-- `createViewLocalVideo`, everything before the await (StreamUtils.ts lines
148-181).  Note the source passes the constructed `renderer` — not
`undefined` — to `setLocalRenderInfo` together with status Rendering (line
177), unlike the remote and unparented variants. -/
def createViewLocalVideoStart (s : SysState) (callId : String) : SysState × StartResult :=
  match lookupK callId s.localReg with
  | none => (s, .earlyReturn)
  | some renderInfo =>
    if renderInfo.status = .rendered then (s, .earlyReturn)
    else if renderInfo.status = .rendering then (s, .earlyReturn)
    else if renderInfo.status = .stopping then (s, .earlyReturn)
    else
      let renderer := s.nextRenderer
      ({ s with
          localReg := upsert callId
            { stream := renderInfo.stream, status := .rendering, renderer := some renderer } s.localReg
          nextRenderer := s.nextRenderer + 1 },
        .started renderer renderInfo.stream)

/-- `createViewLocalVideo`, everything after the await (StreamUtils.ts lines
182-220). -/
def createViewLocalVideoFinish (s : SysState) (callId : String)
    (renderer capturedStream : Nat) (ok : Bool) (view : Nat) :
    SysState × Except Unit (Option (Nat × Nat)) :=
  match ok with
  | false =>
    ({ s with
        localReg := upsert callId
          { stream := capturedStream, status := .notRendered, renderer := none } s.localReg },
      .error ())
  | true =>
    match lookupK callId s.localReg with
    | none =>
      ({ s with
          disposeLog := s.disposeLog ++ [renderer]
          store := setLocalVideoStreamRendererView s.store callId none },
        .ok none)
    | some refreshedRenderInfo =>
      if refreshedRenderInfo.status = .stopping then
        ({ s with
            disposeLog := s.disposeLog ++ [renderer]
            localReg := upsert callId
              { stream := refreshedRenderInfo.stream, status := .notRendered, renderer := none }
              s.localReg
            store := setLocalVideoStreamRendererView s.store callId none },
          .ok none)
      else
        ({ s with
            localReg := upsert callId
              { stream := refreshedRenderInfo.stream, status := .rendered, renderer := some renderer }
              s.localReg
            store := setLocalVideoStreamRendererView s.store callId (some view) },
          .ok (some (renderer, view)))

/-- `createViewUnparentedVideo`, everything before the await (StreamUtils.ts
lines 228-253).  The unparented registry is keyed by the declarative stream's
identity (`streamKey`); an absent entry is not an early return here.  The SDK
`LocalVideoStream` constructed from `stream.source` is identified with the
stream key, since nothing in the claims distinguishes it beyond identity. -/
def createViewUnparentedVideoStart (s : SysState) (streamKey : Nat) : SysState × StartResult :=
  let renderInfo := lookupK streamKey s.unparentedReg
  match renderInfo with
  | some ri =>
    if ri.status = .rendered then (s, .earlyReturn)
    else if ri.status = .rendering then (s, .earlyReturn)
    else if ri.status = .stopping then (s, .earlyReturn)
    else
      let localVideoStream := streamKey
      let renderer := s.nextRenderer
      ({ s with
          unparentedReg := upsert streamKey
            { stream := localVideoStream, status := .rendering, renderer := none } s.unparentedReg
          nextRenderer := s.nextRenderer + 1 },
        .started renderer localVideoStream)
  | none =>
    let localVideoStream := streamKey
    let renderer := s.nextRenderer
    ({ s with
        unparentedReg := upsert streamKey
          { stream := localVideoStream, status := .rendering, renderer := none } s.unparentedReg
        nextRenderer := s.nextRenderer + 1 },
      .started renderer localVideoStream)

/-- `createViewUnparentedVideo`, everything after the await (StreamUtils.ts
lines 251-291).  On failure the entry is deleted entirely.  On success with
status Stopping the source deletes the registry entry and the stored view and
returns — it does not call `renderer.dispose()` in this branch (lines
274-281), unlike the remote and local variants. -/
def createViewUnparentedVideoFinish (s : SysState) (streamKey renderer sdkStream : Nat)
    (ok : Bool) (view : Nat) : SysState × Except Unit (Option (Nat × Nat)) :=
  match ok with
  | false =>
    ({ s with unparentedReg := eraseK streamKey s.unparentedReg }, .error ())
  | true =>
    match lookupK streamKey s.unparentedReg with
    | none =>
      ({ s with
          disposeLog := s.disposeLog ++ [renderer]
          store := deleteDeviceManagerUnparentedView s.store streamKey },
        .ok none)
    | some refreshedRenderInfo =>
      if refreshedRenderInfo.status = .stopping then
        ({ s with
            unparentedReg := eraseK streamKey s.unparentedReg
            store := deleteDeviceManagerUnparentedView s.store streamKey },
          .ok none)
      else
        ({ s with
            unparentedReg := upsert streamKey
              { stream := sdkStream, status := .rendered, renderer := some renderer }
              s.unparentedReg
            store := setDeviceManagerUnparentedView s.store streamKey view },
          .ok (some (renderer, view)))

/-- `disposeViewRemoteVideo` (StreamUtils.ts lines 294-338): clear the
published view first, then look up the render info; if Rendering set status
Stopping (renderer cleared), otherwise set NotRendered (renderer cleared); if
the pre-existing entry held a renderer handle, dispose it. -/
def disposeViewRemoteVideo (s : SysState) (callId participantKey : String)
    (streamId : Nat) : SysState :=
  let s1 := { s with
    store := setRemoteVideoStreamRendererView s.store callId participantKey streamId none }
  match lookupK (callId, participantKey, streamId) s1.remoteReg with
  | none => s1
  | some renderInfo =>
    let s2 :=
      if renderInfo.status = .rendering then
        { s1 with
            remoteReg := upsert (callId, participantKey, streamId)
              { stream := renderInfo.stream, status := .stopping, renderer := none } s1.remoteReg }
      else
        { s1 with
            remoteReg := upsert (callId, participantKey, streamId)
              { stream := renderInfo.stream, status := .notRendered, renderer := none } s1.remoteReg }
    match renderInfo.renderer with
    | some r => { s2 with disposeLog := s2.disposeLog ++ [r] }
    | none => s2

/-- `disposeViewLocalVideo` (StreamUtils.ts lines 340-360).  The stream
argument of the public entry point is not passed down: disposal is keyed by
`callId` alone. -/
def disposeViewLocalVideo (s : SysState) (callId : String) : SysState :=
  let s1 := { s with store := setLocalVideoStreamRendererView s.store callId none }
  match lookupK callId s1.localReg with
  | none => s1
  | some renderInfo =>
    let s2 :=
      if renderInfo.status = .rendering then
        { s1 with
            localReg := upsert callId
              { stream := renderInfo.stream, status := .stopping, renderer := none } s1.localReg }
      else
        { s1 with
            localReg := upsert callId
              { stream := renderInfo.stream, status := .notRendered, renderer := none } s1.localReg }
    match renderInfo.renderer with
    | some r => { s2 with disposeLog := s2.disposeLog ++ [r] }
    | none => s2

/-- `disposeViewUnparentedVideo` (StreamUtils.ts lines 362-383): if Rendering
set status Stopping, otherwise delete the entry; then dispose any held
renderer. -/
def disposeViewUnparentedVideo (s : SysState) (streamKey : Nat) : SysState :=
  let s1 := { s with store := deleteDeviceManagerUnparentedView s.store streamKey }
  match lookupK streamKey s1.unparentedReg with
  | none => s1
  | some renderInfo =>
    let s2 :=
      if renderInfo.status = .rendering then
        { s1 with
            unparentedReg := upsert streamKey
              { stream := renderInfo.stream, status := .stopping, renderer := none } s1.unparentedReg }
      else
        { s1 with unparentedReg := eraseK streamKey s1.unparentedReg }
    match renderInfo.renderer with
    | some r => { s2 with disposeLog := s2.disposeLog ++ [r] }
    | none => s2

/-- A stream argument to the public `createView` / `disposeView` entry
points: a `RemoteVideoStreamState` (which has an `id` property) or a
`LocalVideoStreamState` (which does not; its identity is the unparented
registry key). -/
inductive StreamArg
  | remoteS (id : Nat)
  | localS (key : Nat)
deriving DecidableEq

/-- Whether the stream argument has an `id` property (the dispatch test
written as `'id' in stream` in the source). -/
def StreamArg.hasId : StreamArg → Bool
  | .remoteS _ => true
  | .localS _ => false

/-- JS truthiness of an optional string argument: `undefined` and the empty
string are falsy. -/
def truthy : Option String → Bool
  | none => false
  | some c => if c = "" then false else true

/-- The dispatch outcome of the conditionals shared verbatim by
`createView` (StreamUtils.ts lines 396-408) and `disposeView` (lines
421-433). -/
inductive ViewRequestClass
  | remoteInCall (callId participantKey : String) (streamId : Nat)
  | localInCall (callId : String)
  | unparented (streamKey : Nat)
  | invalid
deriving DecidableEq

/-- The identical if-chain of `createView` and `disposeView`: remote-in-call
when the stream has an id and both callId and participantId are truthy;
local-in-call when the stream has no id and callId is truthy; unparented when
the stream has no id and callId is falsy; otherwise invalid.  The
participant identifier is modelled by its flat string key (the
`toFlatCommunicationIdentifier` flattening lives outside this repository). -/
def classifyViewRequest (callId participantId : Option String) (stream : StreamArg) :
    ViewRequestClass :=
  match stream with
  | .remoteS sid =>
    if truthy callId && truthy participantId then
      .remoteInCall (callId.getD "") (participantId.getD "") sid
    else .invalid
  | .localS k =>
    if truthy callId then .localInCall (callId.getD "") else .unparented k

/-- Outcome of the synchronous part of the public `createView`: the invalid
branch warns and returns a resolved `undefined` promise without suspending;
otherwise one of the three class functions runs up to its early return or its
suspension point. -/
inductive CreateStartOutcome
  | invalidWarned
  | earlyEmpty
  | started (renderer captured : Nat)
deriving DecidableEq

/-- Lift a class function's pre-suspension result into the dispatcher's
outcome. -/
def liftStart : SysState × StartResult → SysState × CreateStartOutcome
  | (s, .earlyReturn) => (s, .earlyEmpty)
  | (s, .started r c) => (s, .started r c)

/-- The public `createView` (StreamUtils.ts lines 388-409), up to the
suspension point of the dispatched class function. -/
def createViewStart (s : SysState) (callId participantId : Option String)
    (stream : StreamArg) : SysState × CreateStartOutcome :=
  match classifyViewRequest callId participantId stream with
  | .remoteInCall c p sid => liftStart (createViewRemoteVideoStart s c p sid)
  | .localInCall c => liftStart (createViewLocalVideoStart s c)
  | .unparented k => liftStart (createViewUnparentedVideoStart s k)
  | .invalid => (s, .invalidWarned)

/-- Outcome of the public `disposeView`: handled by a class function, or the
invalid-combination warning with no state change. -/
inductive DisposeOutcome
  | handled
  | invalidWarned
deriving DecidableEq

/-- The public `disposeView` (StreamUtils.ts lines 414-434). -/
def disposeView (s : SysState) (callId participantId : Option String)
    (stream : StreamArg) : SysState × DisposeOutcome :=
  match classifyViewRequest callId participantId stream with
  | .remoteInCall c p sid => (disposeViewRemoteVideo s c p sid, .handled)
  | .localInCall c => (disposeViewLocalVideo s c, .handled)
  | .unparented k => (disposeViewUnparentedVideo s k, .handled)
  | .invalid => (s, .invalidWarned)

/-- The remote loop of `disposeAllViewsFromCall` (StreamUtils.ts lines
445-460): enumerate the remote render infos of the call and call
`disposeView` on each, passing the declarative conversion of the recorded
SDK stream (whose id keys the disposal). -/
def disposeAllRemotePhase (s : SysState) (callId : String) : SysState :=
  (s.remoteReg.filter (fun kv => kv.1.1 = callId)).foldl
    (fun acc kv => (disposeView acc (some callId) (some kv.1.2.1) (.remoteS kv.2.stream)).1) s

/-- The local phase of `disposeAllViewsFromCall` (StreamUtils.ts lines
461-472): only when the local render info exists and holds a renderer is
`disposeView` applied to it. -/
def disposeAllViewsFromCall (s : SysState) (callId : String) : SysState :=
  let s1 := disposeAllRemotePhase s callId
  match lookupK callId s1.localReg with
  | some localStreamAndRenderer =>
    match localStreamAndRenderer.renderer with
    | some _ =>
      (disposeView s1 (some callId) none (.localS localStreamAndRenderer.stream)).1
    | none => s1
  | none => s1

/-- An atomic step of the cooperative scheduler: either a pre-suspension
phase, a post-suspension phase (carrying the values captured before the
await and the external call's success), a dispose request through the public
dispatcher, or a bulk dispose.  Between a matching start and finish the
scheduler may interleave any other events — finish events carry arbitrary
captured values, which over-approximates the real interleavings. -/
inductive Ev
  | evRemoteStart (c p : String) (sid : Nat)
  | evRemoteFinish (c p : String) (sid r st : Nat) (ok : Bool) (view : Nat)
  | evLocalStart (c : String)
  | evLocalFinish (c : String) (r st : Nat) (ok : Bool) (view : Nat)
  | evUnparentedStart (k : Nat)
  | evUnparentedFinish (k r sdk : Nat) (ok : Bool) (view : Nat)
  | evDispose (callId participantId : Option String) (stream : StreamArg)
  | evDisposeAllFromCall (c : String)

/-- The state transition of one scheduler step (return values projected
away). -/
def stepEv : Ev → SysState → SysState
  | .evRemoteStart c p sid, s => (createViewRemoteVideoStart s c p sid).1
  | .evRemoteFinish c p sid r st ok v, s => (createViewRemoteVideoFinish s c p sid r st ok v).1
  | .evLocalStart c, s => (createViewLocalVideoStart s c).1
  | .evLocalFinish c r st ok v, s => (createViewLocalVideoFinish s c r st ok v).1
  | .evUnparentedStart k, s => (createViewUnparentedVideoStart s k).1
  | .evUnparentedFinish k r sdk ok v, s => (createViewUnparentedVideoFinish s k r sdk ok v).1
  | .evDispose cid pid stream, s => (disposeView s cid pid stream).1
  | .evDisposeAllFromCall c, s => disposeAllViewsFromCall s c

/-- State of the `ProxyCallClient` cache for `getDeviceManager`
(StatefulCallClient.ts lines 159-160): the SDK device manager instance seen
first, the cached declarative wrapper, and a fresh-identity counter for
wrapper construction (`deviceManagerDeclaratify` builds a new object each
time it is called, so caching is observable). -/
structure ProxyDM where
  sdkDeviceManager : Option Nat
  deviceManager : Option Nat
  nextWrapper : Nat
deriving DecidableEq

/-- The `getDeviceManager` trap of `ProxyCallClient.get`
(StatefulCallClient.ts lines 180-201), applied to the instance the SDK
returned: if an instance was cached and the new one is identical, return the
cached declarative wrapper; if it differs, throw the configuration-mismatch
error (leaving the cache untouched); on first call, cache the instance and a
freshly built wrapper. -/
def getDeviceManagerTrap (st : ProxyDM) (sdkReturned : Nat) :
    ProxyDM × Except Unit (Option Nat) :=
  match st.sdkDeviceManager with
  | some cached =>
    if sdkReturned = cached then (st, .ok st.deviceManager)
    else (st, .error ())
  | none =>
    ({ sdkDeviceManager := some sdkReturned
       deviceManager := some st.nextWrapper
       nextWrapper := st.nextWrapper + 1 },
      .ok (some st.nextWrapper))

/-- A sequence of `getDeviceManager` calls, each given the instance the SDK
returned, producing the list of results. -/
def runGetDeviceManager (st : ProxyDM) : List Nat → List (Except Unit (Option Nat))
  | [] => []
  | r :: rs =>
    let p := getDeviceManagerTrap st r
    p.2 :: runGetDeviceManager p.1 rs

/-- The proxy cache before any `getDeviceManager` call. -/
def initProxyDM : ProxyDM :=
  { sdkDeviceManager := none, deviceManager := none, nextWrapper := 0 }


theorem lookupK_upsert_self {κ α : Type} [DecidableEq κ] (k : κ) (v : α) :
    ∀ l : List (κ × α), lookupK k (upsert k v l) = some v := by
  intro l
  induction l with
  | nil => simp [upsert, lookupK]
  | cons hd tl ih =>
    obtain ⟨k', v'⟩ := hd
    by_cases h : k' = k
    · simp [upsert, h, lookupK]
    · simp [upsert, h, lookupK, ih]

theorem lookupK_upsert_ne {κ α : Type} [DecidableEq κ] {q k : κ} (v : α) (h : q ≠ k) :
    ∀ l : List (κ × α), lookupK q (upsert k v l) = lookupK q l := by
  intro l
  have hkq : ¬ k = q := fun hh => h hh.symm
  induction l with
  | nil => simp [upsert, lookupK, hkq]
  | cons hd tl ih =>
    obtain ⟨k', v'⟩ := hd
    by_cases hk : k' = k
    · subst hk
      simp [upsert, lookupK, hkq]
    · simp [upsert, hk, lookupK, ih]

theorem mem_upsert {κ α : Type} [DecidableEq κ] {kv : κ × α} {k : κ} {v : α} :
    ∀ {l : List (κ × α)}, kv ∈ upsert k v l → kv = (k, v) ∨ kv ∈ l := by
  intro l
  induction l with
  | nil => simp [upsert]
  | cons hd tl ih =>
    obtain ⟨k', v'⟩ := hd
    by_cases h : k' = k
    · intro hm
      simp only [upsert, if_pos h, List.mem_cons] at hm
      rcases hm with h1 | h1
      · exact Or.inl h1
      · exact Or.inr (List.mem_cons.2 (Or.inr h1))
    · intro hm
      simp only [upsert, if_neg h, List.mem_cons] at hm
      rcases hm with h1 | h1
      · exact Or.inr (List.mem_cons.2 (Or.inl h1))
      · rcases ih h1 with h2 | h2
        · exact Or.inl h2
        · exact Or.inr (List.mem_cons.2 (Or.inr h2))

theorem mem_keysOf_upsert {κ α : Type} [DecidableEq κ] {x k : κ} {v : α} :
    ∀ {l : List (κ × α)}, x ∈ keysOf (upsert k v l) → x = k ∨ x ∈ keysOf l := by
  intro l
  induction l with
  | nil => simp [upsert, keysOf]
  | cons hd tl ih =>
    obtain ⟨k', v'⟩ := hd
    by_cases h : k' = k
    · intro hm
      simp only [upsert, if_pos h, keysOf, List.map_cons, List.mem_cons] at hm
      rcases hm with h1 | h1
      · exact Or.inl h1
      · exact Or.inr (by simp only [keysOf, List.map_cons, List.mem_cons]; exact Or.inr h1)
    · intro hm
      simp only [upsert, if_neg h, keysOf, List.map_cons, List.mem_cons] at hm
      rcases hm with h1 | h1
      · exact Or.inr (by simp only [keysOf, List.map_cons, List.mem_cons]; exact Or.inl h1)
      · rcases ih h1 with h2 | h2
        · exact Or.inl h2
        · exact Or.inr (by
            simp only [keysOf, List.map_cons, List.mem_cons]
            simp only [keysOf] at h2
            exact Or.inr h2)

theorem nodup_keysOf_upsert {κ α : Type} [DecidableEq κ] (k : κ) (v : α) :
    ∀ {l : List (κ × α)}, (keysOf l).Nodup → (keysOf (upsert k v l)).Nodup := by
  intro l
  induction l with
  | nil => simp [upsert, keysOf]
  | cons hd tl ih =>
    obtain ⟨k', v'⟩ := hd
    intro h
    simp only [keysOf, List.map_cons, List.nodup_cons] at h
    by_cases hk : k' = k
    · subst hk
      simpa [upsert, keysOf, List.nodup_cons] using h
    · simp only [upsert, if_neg hk, keysOf, List.map_cons, List.nodup_cons]
      refine ⟨fun hm => ?_, ih h.2⟩
      rcases mem_keysOf_upsert hm with h1 | h1
      · exact hk h1
      · exact h.1 (by simpa [keysOf] using h1)

theorem mem_eraseK {κ α : Type} [DecidableEq κ] {kv : κ × α} {k : κ} :
    ∀ {l : List (κ × α)}, kv ∈ eraseK k l → kv ∈ l := by
  intro l
  induction l with
  | nil => simp [eraseK]
  | cons hd tl ih =>
    obtain ⟨k', v'⟩ := hd
    by_cases h : k' = k
    · intro hm
      simp only [eraseK, if_pos h] at hm
      exact List.mem_cons.2 (Or.inr (ih hm))
    · intro hm
      simp only [eraseK, if_neg h, List.mem_cons] at hm
      rcases hm with h1 | h1
      · exact List.mem_cons.2 (Or.inl h1)
      · exact List.mem_cons.2 (Or.inr (ih h1))

theorem mem_keysOf_eraseK {κ α : Type} [DecidableEq κ] {x k : κ} :
    ∀ {l : List (κ × α)}, x ∈ keysOf (eraseK k l) → x ∈ keysOf l := by
  intro l hm
  simp only [keysOf, List.mem_map] at hm ⊢
  obtain ⟨kv, hkv, rfl⟩ := hm
  exact ⟨kv, mem_eraseK hkv, rfl⟩

theorem nodup_keysOf_eraseK {κ α : Type} [DecidableEq κ] (k : κ) :
    ∀ {l : List (κ × α)}, (keysOf l).Nodup → (keysOf (eraseK k l)).Nodup := by
  intro l
  induction l with
  | nil => simp [eraseK]
  | cons hd tl ih =>
    obtain ⟨k', v'⟩ := hd
    intro h
    simp only [keysOf, List.map_cons, List.nodup_cons] at h
    by_cases hk : k' = k
    · simp only [eraseK, if_pos hk]
      exact ih h.2
    · simp only [eraseK, if_neg hk, keysOf, List.map_cons, List.nodup_cons]
      refine ⟨fun hm => h.1 (by simpa [keysOf] using mem_keysOf_eraseK hm), ih h.2⟩

theorem lookupK_eraseK_self {κ α : Type} [DecidableEq κ] (k : κ) :
    ∀ l : List (κ × α), lookupK k (eraseK k l) = none := by
  intro l
  induction l with
  | nil => simp [eraseK, lookupK]
  | cons hd tl ih =>
    obtain ⟨k', v'⟩ := hd
    by_cases h : k' = k
    · simpa [eraseK, h] using ih
    · simpa [eraseK, h, lookupK] using ih

theorem lookupK_eraseK_ne {κ α : Type} [DecidableEq κ] {q k : κ} (h : q ≠ k) :
    ∀ l : List (κ × α), lookupK q (eraseK k l) = lookupK q l := by
  intro l
  induction l with
  | nil => simp [eraseK]
  | cons hd tl ih =>
    obtain ⟨k', v'⟩ := hd
    by_cases hk : k' = k
    · subst hk
      have hne : ¬ k' = q := fun hh => h (hh ▸ rfl)
      simpa [eraseK, lookupK, hne] using ih
    · by_cases hq : k' = q
      · simp [eraseK, hk, lookupK, hq, h]
      · simpa [eraseK, hk, lookupK, hq] using ih

theorem lookupK_of_mem {κ α : Type} [DecidableEq κ] {kv : κ × α} :
    ∀ {l : List (κ × α)}, (keysOf l).Nodup → kv ∈ l → lookupK kv.1 l = some kv.2 := by
  intro l
  induction l with
  | nil => simp
  | cons hd tl ih =>
    obtain ⟨k', v'⟩ := hd
    intro hnd hm
    simp only [keysOf, List.map_cons, List.nodup_cons] at hnd
    rcases List.mem_cons.1 hm with h1 | h1
    · subst h1
      simp [lookupK]
    · have hne : ¬ k' = kv.1 := by
        intro hh
        exact hnd.1 (hh ▸ List.mem_map_of_mem Prod.fst h1)
      simp only [lookupK, if_neg hne]
      exact ih hnd.2 h1

/-- The amended per-entry handle invariant for remote-in-call and unparented
entries: the renderer handle is held exactly when the status is Rendered. -/
def remoteEntryOk (i : RenderInfo) : Prop :=
  i.status = .rendered ↔ i.renderer ≠ none

/-- The amended per-entry handle invariant for local-in-call entries: the
renderer handle is held exactly when the status is Rendered or Rendering
(the source stores the constructed renderer already at status Rendering,
StreamUtils.ts line 177). -/
def localEntryOk (i : RenderInfo) : Prop :=
  i.renderer ≠ none ↔ (i.status = .rendered ∨ i.status = .rendering)

/-- The amended Registry invariant over the three lookup structures: keys are
unique (at most one entry per render key) and every entry satisfies its
per-entry handle invariant. -/
def RegInv (rem : List ((String × String × Nat) × RenderInfo))
    (loc : List (String × RenderInfo)) (unp : List (Nat × RenderInfo)) : Prop :=
  (keysOf rem).Nodup ∧ (keysOf loc).Nodup ∧ (keysOf unp).Nodup ∧
  (∀ kv ∈ rem, remoteEntryOk kv.2) ∧ (∀ kv ∈ unp, remoteEntryOk kv.2) ∧
  (∀ kv ∈ loc, localEntryOk kv.2)

/-- The amended Registry invariant of a system state. -/
def RegistryInv (s : SysState) : Prop :=
  RegInv s.remoteReg s.localReg s.unparentedReg

theorem forall_mem_upsert {κ α : Type} [DecidableEq κ] {P : κ × α → Prop} {l : List (κ × α)}
    {k : κ} {v : α} (h : ∀ kv ∈ l, P kv) (hv : P (k, v)) : ∀ kv ∈ upsert k v l, P kv := by
  intro kv hm
  rcases mem_upsert hm with h1 | h1
  · exact h1 ▸ hv
  · exact h kv h1

theorem forall_mem_eraseK {κ α : Type} [DecidableEq κ] {P : κ × α → Prop} {l : List (κ × α)}
    {k : κ} (h : ∀ kv ∈ l, P kv) : ∀ kv ∈ eraseK k l, P kv :=
  fun kv hm => h kv (mem_eraseK hm)

theorem regInv_upsert_remote {rem loc unp} (h : RegInv rem loc unp)
    {k : String × String × Nat} {i : RenderInfo} (hi : remoteEntryOk i) :
    RegInv (upsert k i rem) loc unp :=
  ⟨nodup_keysOf_upsert _ _ h.1, h.2.1, h.2.2.1,
    forall_mem_upsert h.2.2.2.1 hi, h.2.2.2.2.1, h.2.2.2.2.2⟩

theorem regInv_upsert_local {rem loc unp} (h : RegInv rem loc unp)
    {k : String} {i : RenderInfo} (hi : localEntryOk i) :
    RegInv rem (upsert k i loc) unp :=
  ⟨h.1, nodup_keysOf_upsert _ _ h.2.1, h.2.2.1,
    h.2.2.2.1, h.2.2.2.2.1, forall_mem_upsert h.2.2.2.2.2 hi⟩

theorem regInv_upsert_unparented {rem loc unp} (h : RegInv rem loc unp)
    {k : Nat} {i : RenderInfo} (hi : remoteEntryOk i) :
    RegInv rem loc (upsert k i unp) :=
  ⟨h.1, h.2.1, nodup_keysOf_upsert _ _ h.2.2.1,
    h.2.2.2.1, forall_mem_upsert h.2.2.2.2.1 hi, h.2.2.2.2.2⟩

theorem regInv_eraseK_unparented {rem loc unp} (h : RegInv rem loc unp) (k : Nat) :
    RegInv rem loc (eraseK k unp) :=
  ⟨h.1, h.2.1, nodup_keysOf_eraseK _ h.2.2.1,
    h.2.2.2.1, forall_mem_eraseK h.2.2.2.2.1, h.2.2.2.2.2⟩

theorem registryInv_remoteStart (s : SysState) (c p : String) (sid : Nat)
    (h : RegistryInv s) : RegistryInv (createViewRemoteVideoStart s c p sid).1 := by
  cases hl : lookupK (c, p, sid) s.remoteReg with
  | none => simpa [createViewRemoteVideoStart, hl] using h
  | some ri =>
    by_cases h1 : ri.status = .rendered
    · simpa [createViewRemoteVideoStart, hl, h1] using h
    · by_cases h2 : ri.status = .rendering
      · simpa [createViewRemoteVideoStart, hl, h1, h2] using h
      · by_cases h3 : ri.status = .stopping
        · simpa [createViewRemoteVideoStart, hl, h1, h2, h3] using h
        · simp only [createViewRemoteVideoStart, hl, if_neg h1, if_neg h2, if_neg h3]
          exact regInv_upsert_remote h (by simp [remoteEntryOk])

theorem registryInv_localStart (s : SysState) (c : String)
    (h : RegistryInv s) : RegistryInv (createViewLocalVideoStart s c).1 := by
  cases hl : lookupK c s.localReg with
  | none => simpa [createViewLocalVideoStart, hl] using h
  | some ri =>
    by_cases h1 : ri.status = .rendered
    · simpa [createViewLocalVideoStart, hl, h1] using h
    · by_cases h2 : ri.status = .rendering
      · simpa [createViewLocalVideoStart, hl, h1, h2] using h
      · by_cases h3 : ri.status = .stopping
        · simpa [createViewLocalVideoStart, hl, h1, h2, h3] using h
        · simp only [createViewLocalVideoStart, hl, if_neg h1, if_neg h2, if_neg h3]
          exact regInv_upsert_local h (by simp [localEntryOk])

theorem registryInv_unparentedStart (s : SysState) (k : Nat)
    (h : RegistryInv s) : RegistryInv (createViewUnparentedVideoStart s k).1 := by
  cases hl : lookupK k s.unparentedReg with
  | none =>
    simp only [createViewUnparentedVideoStart, hl]
    exact regInv_upsert_unparented h (by simp [remoteEntryOk])
  | some ri =>
    by_cases h1 : ri.status = .rendered
    · simpa [createViewUnparentedVideoStart, hl, h1] using h
    · by_cases h2 : ri.status = .rendering
      · simpa [createViewUnparentedVideoStart, hl, h1, h2] using h
      · by_cases h3 : ri.status = .stopping
        · simpa [createViewUnparentedVideoStart, hl, h1, h2, h3] using h
        · simp only [createViewUnparentedVideoStart, hl, if_neg h1, if_neg h2, if_neg h3]
          exact regInv_upsert_unparented h (by simp [remoteEntryOk])

theorem registryInv_remoteFinish (s : SysState) (c p : String) (sid r st : Nat)
    (ok : Bool) (v : Nat) (h : RegistryInv s) :
    RegistryInv (createViewRemoteVideoFinish s c p sid r st ok v).1 := by
  cases ok with
  | false =>
    simp only [createViewRemoteVideoFinish]
    exact regInv_upsert_remote h (by simp [remoteEntryOk])
  | true =>
    cases hl : lookupK (c, p, sid) s.remoteReg with
    | none => simpa [createViewRemoteVideoFinish, hl] using h
    | some ri =>
      by_cases h1 : ri.status = .stopping
      · simp only [createViewRemoteVideoFinish, hl, if_pos h1]
        exact regInv_upsert_remote h (by simp [remoteEntryOk])
      · simp only [createViewRemoteVideoFinish, hl, if_neg h1]
        exact regInv_upsert_remote h (by simp [remoteEntryOk])

theorem registryInv_localFinish (s : SysState) (c : String) (r st : Nat)
    (ok : Bool) (v : Nat) (h : RegistryInv s) :
    RegistryInv (createViewLocalVideoFinish s c r st ok v).1 := by
  cases ok with
  | false =>
    simp only [createViewLocalVideoFinish]
    exact regInv_upsert_local h (by simp [localEntryOk])
  | true =>
    cases hl : lookupK c s.localReg with
    | none => simpa [createViewLocalVideoFinish, hl] using h
    | some ri =>
      by_cases h1 : ri.status = .stopping
      · simp only [createViewLocalVideoFinish, hl, if_pos h1]
        exact regInv_upsert_local h (by simp [localEntryOk])
      · simp only [createViewLocalVideoFinish, hl, if_neg h1]
        exact regInv_upsert_local h (by simp [localEntryOk])

theorem registryInv_unparentedFinish (s : SysState) (k r sdk : Nat)
    (ok : Bool) (v : Nat) (h : RegistryInv s) :
    RegistryInv (createViewUnparentedVideoFinish s k r sdk ok v).1 := by
  cases ok with
  | false =>
    simp only [createViewUnparentedVideoFinish]
    exact regInv_eraseK_unparented h k
  | true =>
    cases hl : lookupK k s.unparentedReg with
    | none => simpa [createViewUnparentedVideoFinish, hl] using h
    | some ri =>
      by_cases h1 : ri.status = .stopping
      · simp only [createViewUnparentedVideoFinish, hl, if_pos h1]
        exact regInv_eraseK_unparented h k
      · simp only [createViewUnparentedVideoFinish, hl, if_neg h1]
        exact regInv_upsert_unparented h (by simp [remoteEntryOk])

theorem registryInv_disposeViewRemoteVideo (s : SysState) (c p : String) (sid : Nat)
    (h : RegistryInv s) : RegistryInv (disposeViewRemoteVideo s c p sid) := by
  cases hl : lookupK (c, p, sid) s.remoteReg with
  | none => simpa [disposeViewRemoteVideo, hl, RegistryInv] using h
  | some ri =>
    cases hr : ri.renderer with
    | none =>
      by_cases h1 : ri.status = .rendering
      · simp only [disposeViewRemoteVideo, hl, hr, if_pos h1]
        exact regInv_upsert_remote h (by simp [remoteEntryOk])
      · simp only [disposeViewRemoteVideo, hl, hr, if_neg h1]
        exact regInv_upsert_remote h (by simp [remoteEntryOk])
    | some rr =>
      by_cases h1 : ri.status = .rendering
      · simp only [disposeViewRemoteVideo, hl, hr, if_pos h1]
        exact regInv_upsert_remote h (by simp [remoteEntryOk])
      · simp only [disposeViewRemoteVideo, hl, hr, if_neg h1]
        exact regInv_upsert_remote h (by simp [remoteEntryOk])

theorem registryInv_disposeViewLocalVideo (s : SysState) (c : String)
    (h : RegistryInv s) : RegistryInv (disposeViewLocalVideo s c) := by
  cases hl : lookupK c s.localReg with
  | none => simpa [disposeViewLocalVideo, hl, RegistryInv] using h
  | some ri =>
    cases hr : ri.renderer with
    | none =>
      by_cases h1 : ri.status = .rendering
      · simp only [disposeViewLocalVideo, hl, hr, if_pos h1]
        exact regInv_upsert_local h (by simp [localEntryOk])
      · simp only [disposeViewLocalVideo, hl, hr, if_neg h1]
        exact regInv_upsert_local h (by simp [localEntryOk])
    | some rr =>
      by_cases h1 : ri.status = .rendering
      · simp only [disposeViewLocalVideo, hl, hr, if_pos h1]
        exact regInv_upsert_local h (by simp [localEntryOk])
      · simp only [disposeViewLocalVideo, hl, hr, if_neg h1]
        exact regInv_upsert_local h (by simp [localEntryOk])

theorem registryInv_disposeViewUnparentedVideo (s : SysState) (k : Nat)
    (h : RegistryInv s) : RegistryInv (disposeViewUnparentedVideo s k) := by
  cases hl : lookupK k s.unparentedReg with
  | none => simpa [disposeViewUnparentedVideo, hl, RegistryInv] using h
  | some ri =>
    cases hr : ri.renderer with
    | none =>
      by_cases h1 : ri.status = .rendering
      · simp only [disposeViewUnparentedVideo, hl, hr, if_pos h1]
        exact regInv_upsert_unparented h (by simp [remoteEntryOk])
      · simp only [disposeViewUnparentedVideo, hl, hr, if_neg h1]
        exact regInv_eraseK_unparented h k
    | some rr =>
      by_cases h1 : ri.status = .rendering
      · simp only [disposeViewUnparentedVideo, hl, hr, if_pos h1]
        exact regInv_upsert_unparented h (by simp [remoteEntryOk])
      · simp only [disposeViewUnparentedVideo, hl, hr, if_neg h1]
        exact regInv_eraseK_unparented h k

theorem registryInv_disposeView (s : SysState) (cid pid : Option String) (stream : StreamArg)
    (h : RegistryInv s) : RegistryInv (disposeView s cid pid stream).1 := by
  cases hc : classifyViewRequest cid pid stream with
  | remoteInCall c p sid =>
    simp only [disposeView, hc]
    exact registryInv_disposeViewRemoteVideo s c p sid h
  | localInCall c =>
    simp only [disposeView, hc]
    exact registryInv_disposeViewLocalVideo s c h
  | unparented k =>
    simp only [disposeView, hc]
    exact registryInv_disposeViewUnparentedVideo s k h
  | invalid => simpa [disposeView, hc] using h

theorem registryInv_foldl {α : Type} (f : SysState → α → SysState)
    (hf : ∀ s a, RegistryInv s → RegistryInv (f s a)) :
    ∀ (l : List α) (s : SysState), RegistryInv s → RegistryInv (List.foldl f s l) := by
  intro l
  induction l with
  | nil => intro s h; exact h
  | cons hd tl ih =>
    intro s h
    exact ih (f s hd) (hf s hd h)

theorem registryInv_disposeAllRemotePhase (s : SysState) (c : String)
    (h : RegistryInv s) : RegistryInv (disposeAllRemotePhase s c) :=
  registryInv_foldl _ (fun s2 _ h2 => registryInv_disposeView s2 _ _ _ h2) _ s h

theorem registryInv_disposeAllViewsFromCall (s : SysState) (c : String)
    (h : RegistryInv s) : RegistryInv (disposeAllViewsFromCall s c) := by
  have hs1 : RegistryInv (disposeAllRemotePhase s c) :=
    registryInv_disposeAllRemotePhase s c h
  cases hl : lookupK c (disposeAllRemotePhase s c).localReg with
  | none => simpa [disposeAllViewsFromCall, hl] using hs1
  | some lsr =>
    cases hr : lsr.renderer with
    | none => simpa [disposeAllViewsFromCall, hl, hr] using hs1
    | some rr =>
      simp only [disposeAllViewsFromCall, hl, hr]
      exact registryInv_disposeView _ _ _ _ hs1

theorem registryInv_stepEv (e : Ev) (s : SysState) (h : RegistryInv s) :
    RegistryInv (stepEv e s) := by
  cases e with
  | evRemoteStart c p sid => exact registryInv_remoteStart s c p sid h
  | evRemoteFinish c p sid r st ok v => exact registryInv_remoteFinish s c p sid r st ok v h
  | evLocalStart c => exact registryInv_localStart s c h
  | evLocalFinish c r st ok v => exact registryInv_localFinish s c r st ok v h
  | evUnparentedStart k => exact registryInv_unparentedStart s k h
  | evUnparentedFinish k r sdk ok v => exact registryInv_unparentedFinish s k r sdk ok v h
  | evDispose cid pid stream => exact registryInv_disposeView s cid pid stream h
  | evDisposeAllFromCall c => exact registryInv_disposeAllViewsFromCall s c h

/-- The handle invariant exactly as the claim states it (for refutation): in
all three registries, Rendered holds a handle and every other status holds
none. -/
def claimedHandleInvariant (s : SysState) : Prop :=
  (∀ kv ∈ s.remoteReg, kv.2.status = .rendered ↔ kv.2.renderer ≠ none) ∧
  (∀ kv ∈ s.localReg, kv.2.status = .rendered ↔ kv.2.renderer ≠ none) ∧
  (∀ kv ∈ s.unparentedReg, kv.2.status = .rendered ↔ kv.2.renderer ≠ none)

/-- The bulk-dispose postcondition exactly as the claim states it (for
refutation): zero Registry entries remain for the call's remote participants
and local stream. -/
def claimedNoCallEntriesRemain (s : SysState) (c : String) : Prop :=
  (∀ kv ∈ s.remoteReg, kv.1.1 ≠ c) ∧ lookupK c s.localReg = none

/-- The valid identifier combinations exactly as the claim lists them: a
stream with an id plus a call and participant identifier; a stream without an
id plus a call identifier; a stream without an id and no call identifier. -/
def claimedValidCombination (callId participantId : Option String) (stream : StreamArg) :
    Prop :=
  (stream.hasId = true ∧ truthy callId = true ∧ truthy participantId = true) ∨
  (stream.hasId = false ∧ truthy callId = true) ∨
  (stream.hasId = false ∧ truthy callId = false)

instance (s : SysState) : Decidable (RegistryInv s) := by
  unfold RegistryInv RegInv remoteEntryOk localEntryOk
  infer_instance

instance (s : SysState) : Decidable (claimedHandleInvariant s) := by
  unfold claimedHandleInvariant
  infer_instance

instance (s : SysState) (c : String) : Decidable (claimedNoCallEntriesRemain s c) := by
  unfold claimedNoCallEntriesRemain
  infer_instance

/-- Scenario for C1: an unparented stream (key 5) whose creation is suspended
when a dispose request arrives. -/
def c1Start : SysState × StartResult :=
  createViewUnparentedVideoStart emptyState 5

/-- Scenario for C1, after `disposeView` runs during the suspension. -/
def c1AfterDispose : SysState :=
  disposeViewUnparentedVideo c1Start.1 5

/-- Scenario for C1, after the suspended creation resumes successfully with
the renderer handle 0 it captured. -/
def c1Resume : SysState × Except Unit (Option (Nat × Nat)) :=
  createViewUnparentedVideoFinish c1AfterDispose 5 0 5 true 99

/-- C1: the claim says that for every render key — unparented streams
included — a dispose issued while creation is suspended leads to the freshly
created renderer being disposed upon resumption.  The code contradicts this
(and its own comment at StreamUtils.ts lines 275-277) for unparented
streams: the Stopping branch of `createViewUnparentedVideo` (lines 274-281)
deletes the registry entry and the stored view and returns empty, but never
calls `renderer.dispose()`, so the renderer leaks.  This theorem evaluates
the failing interleaving: the creation starts (renderer 0), dispose flips
the entry to Stopping, the creation resumes successfully — and the dispose
log stays empty while the entry is deleted and no view is published. -/
theorem C1_unparented_stopping_resume_leaks_renderer :
    c1Start.2 = .started 0 5 ∧
    lookupK 5 c1AfterDispose.unparentedReg = some ⟨5, .stopping, none⟩ ∧
    c1Resume.2 = .ok none ∧
    lookupK 5 c1Resume.1.unparentedReg = none ∧
    lookupK 5 c1Resume.1.store.unparentedViews = none ∧
    c1Resume.1.disposeLog = [] :=
  ⟨rfl, rfl, rfl, rfl, rfl, rfl⟩

/-- Scenario for C2: a call "c1" whose local stream (handle 7) is tracked and
not rendered. -/
def c2S0 : SysState :=
  { emptyState with localReg := [("c1", ⟨7, .notRendered, none⟩)] }

/-- C2 counterexample: the pre-state satisfies the claimed handle invariant,
but one `createViewLocalVideo` pre-suspension step writes status Rendering
together with the constructed renderer handle (StreamUtils.ts line 177),
violating the claim that every non-Rendered status holds an empty handle and
that createView suspends with no renderer handle recorded. -/
theorem C2_counterexample_local_rendering_holds_handle :
    claimedHandleInvariant c2S0 ∧
    (createViewLocalVideoStart c2S0 "c1").2 = .started 0 7 ∧
    lookupK "c1" (createViewLocalVideoStart c2S0 "c1").1.localReg
      = some ⟨7, .rendering, some 0⟩ ∧
    ¬ claimedHandleInvariant (createViewLocalVideoStart c2S0 "c1").1 := by
  refine ⟨by decide, rfl, rfl, by decide⟩

/-- C2 (amended): at most one Registry entry exists per render key at every
time, Rendered entries hold a renderer handle, NotRendered and Stopping
entries hold none, remote-in-call and unparented Rendering entries hold
none, but local-in-call Rendering entries hold the in-flight renderer
handle: the invariant holds initially and is preserved by every scheduler
step, `createViewRemoteVideo` and `createViewUnparentedVideo` suspend having
written Rendering with no handle, while `createViewLocalVideo` suspends
having written Rendering with the handle it just constructed. -/
theorem C2_registry_handle_invariant_amended :
    RegistryInv emptyState ∧
    (∀ e s, RegistryInv s → RegistryInv (stepEv e s)) ∧
    (∀ s c p sid s2 r st, createViewRemoteVideoStart s c p sid = (s2, .started r st) →
      lookupK (c, p, sid) s2.remoteReg = some ⟨st, .rendering, none⟩) ∧
    (∀ s k s2 r sdk, createViewUnparentedVideoStart s k = (s2, .started r sdk) →
      lookupK k s2.unparentedReg = some ⟨sdk, .rendering, none⟩) ∧
    (∀ s c s2 r st, createViewLocalVideoStart s c = (s2, .started r st) →
      lookupK c s2.localReg = some ⟨st, .rendering, some r⟩) := by
  refine ⟨by decide, registryInv_stepEv, ?_, ?_, ?_⟩
  · intro s c p sid s2 r st h
    cases hl : lookupK (c, p, sid) s.remoteReg with
    | none => simp [createViewRemoteVideoStart, hl] at h
    | some ri =>
      by_cases h1 : ri.status = .rendered
      · simp [createViewRemoteVideoStart, hl, h1] at h
      · by_cases h2 : ri.status = .rendering
        · simp [createViewRemoteVideoStart, hl, h1, h2] at h
        · by_cases h3 : ri.status = .stopping
          · simp [createViewRemoteVideoStart, hl, h1, h2, h3] at h
          · simp only [createViewRemoteVideoStart, hl, if_neg h1, if_neg h2, if_neg h3,
              Prod.mk.injEq] at h
            obtain ⟨hs2, hres⟩ := h
            injection hres with hr hst
            subst hs2
            subst hst
            exact lookupK_upsert_self (c, p, sid) _ s.remoteReg
  · intro s k s2 r sdk h
    cases hl : lookupK k s.unparentedReg with
    | none =>
      simp only [createViewUnparentedVideoStart, hl, Prod.mk.injEq] at h
      obtain ⟨hs2, hres⟩ := h
      injection hres with hr hsdk
      subst hs2
      subst hsdk
      exact lookupK_upsert_self k _ s.unparentedReg
    | some ri =>
      by_cases h1 : ri.status = .rendered
      · simp [createViewUnparentedVideoStart, hl, h1] at h
      · by_cases h2 : ri.status = .rendering
        · simp [createViewUnparentedVideoStart, hl, h1, h2] at h
        · by_cases h3 : ri.status = .stopping
          · simp [createViewUnparentedVideoStart, hl, h1, h2, h3] at h
          · simp only [createViewUnparentedVideoStart, hl, if_neg h1, if_neg h2, if_neg h3,
              Prod.mk.injEq] at h
            obtain ⟨hs2, hres⟩ := h
            injection hres with hr hsdk
            subst hs2
            subst hsdk
            exact lookupK_upsert_self k _ s.unparentedReg
  · intro s c s2 r st h
    cases hl : lookupK c s.localReg with
    | none => simp [createViewLocalVideoStart, hl] at h
    | some ri =>
      by_cases h1 : ri.status = .rendered
      · simp [createViewLocalVideoStart, hl, h1] at h
      · by_cases h2 : ri.status = .rendering
        · simp [createViewLocalVideoStart, hl, h1, h2] at h
        · by_cases h3 : ri.status = .stopping
          · simp [createViewLocalVideoStart, hl, h1, h2, h3] at h
          · simp only [createViewLocalVideoStart, hl, if_neg h1, if_neg h2, if_neg h3,
              Prod.mk.injEq] at h
            obtain ⟨hs2, hres⟩ := h
            injection hres with hr hst
            subst hs2
            subst hst
            subst hr
            exact lookupK_upsert_self c _ s.localReg

/-- Witness state for the amended C2 invariant. -/
def c2W0 : SysState :=
  { emptyState with
      remoteReg := [(("c1", "p1", 3), ⟨3, .rendered, some 4⟩)]
      localReg := [("c1", ⟨7, .notRendered, none⟩)] }

/-- C2 witness: the amended invariant theorem applied at a concrete state and
step, and the local start conjunct applied at a concrete run. -/
theorem C2_registry_handle_invariant_amended_witness :
    RegistryInv (stepEv (.evLocalStart "c1") c2W0) ∧
    lookupK "c1" (createViewLocalVideoStart c2W0 "c1").1.localReg
      = some ⟨7, .rendering, some 0⟩ :=
  ⟨C2_registry_handle_invariant_amended.2.1 (.evLocalStart "c1") c2W0 (by decide),
    C2_registry_handle_invariant_amended.2.2.2.2 c2W0 "c1"
      (createViewLocalVideoStart c2W0 "c1").1 0 7 (by decide)⟩

/-- Scenario for C3: a call "c1" with a tracked, not-yet-rendered local
stream (handle 7); creation starts and suspends, then dispose arrives. -/
def c3S0 : SysState :=
  { emptyState with localReg := [("c1", ⟨7, .notRendered, none⟩)] }

/-- Scenario for C3 after the pre-suspension phase of the local creation. -/
def c3Start : SysState × StartResult :=
  createViewLocalVideoStart c3S0 "c1"

/-- Scenario for C3 after `disposeView` runs while the creation is
suspended. -/
def c3AfterDispose : SysState :=
  disposeViewLocalVideo c3Start.1 "c1"

/-- Scenario for C3 after the suspended creation resumes successfully. -/
def c3Resume : SysState × Except Unit (Option (Nat × Nat)) :=
  createViewLocalVideoFinish c3AfterDispose "c1" 0 7 true 99

/-- C3: the claim says a dispose issued while the key is Rendering disposes
no renderer itself and that no renderer handle is ever disposed twice.  For
local-in-call keys the code violates this: `createViewLocalVideo` stores the
constructed renderer under status Rendering (StreamUtils.ts line 177), so
`disposeViewLocalVideo` both flips the status to Stopping and disposes that
handle (lines 351-359), and the resumed creation, observing Stopping,
disposes the very same handle again (line 204).  This theorem evaluates the
failing interleaving: renderer 0 appears twice in the dispose log. -/
theorem C3_local_dispose_while_rendering_double_disposes :
    c3Start.2 = .started 0 7 ∧
    lookupK "c1" c3Start.1.localReg = some ⟨7, .rendering, some 0⟩ ∧
    lookupK "c1" c3AfterDispose.localReg = some ⟨7, .stopping, none⟩ ∧
    c3AfterDispose.disposeLog = [0] ∧
    c3Resume.2 = .ok none ∧
    c3Resume.1.disposeLog = [0, 0] :=
  ⟨rfl, rfl, rfl, rfl, rfl, rfl⟩

/-- C4: for every render key whose registry entry is Rendered, Rendering or
Stopping, createView returns an empty result leaving the whole state —
Registry and State Store — untouched and constructing no renderer; hence a
second createView issued for the same key before the first resumes observes
the Rendering entry written by the first, returns empty and changes nothing,
so exactly one renderer is allocated across the two calls. -/
theorem C4_busy_key_create_is_noop :
    (∀ s c p sid i, lookupK (c, p, sid) s.remoteReg = some i →
      (i.status = .rendered ∨ i.status = .rendering ∨ i.status = .stopping) →
      createViewRemoteVideoStart s c p sid = (s, .earlyReturn)) ∧
    (∀ s c i, lookupK c s.localReg = some i →
      (i.status = .rendered ∨ i.status = .rendering ∨ i.status = .stopping) →
      createViewLocalVideoStart s c = (s, .earlyReturn)) ∧
    (∀ s k i, lookupK k s.unparentedReg = some i →
      (i.status = .rendered ∨ i.status = .rendering ∨ i.status = .stopping) →
      createViewUnparentedVideoStart s k = (s, .earlyReturn)) ∧
    (∀ s c p sid i, lookupK (c, p, sid) s.remoteReg = some i → i.status = .notRendered →
      (createViewRemoteVideoStart s c p sid).2 = .started s.nextRenderer i.stream ∧
      (createViewRemoteVideoStart s c p sid).1.nextRenderer = s.nextRenderer + 1 ∧
      createViewRemoteVideoStart (createViewRemoteVideoStart s c p sid).1 c p sid
        = ((createViewRemoteVideoStart s c p sid).1, .earlyReturn)) ∧
    (∀ s c i, lookupK c s.localReg = some i → i.status = .notRendered →
      (createViewLocalVideoStart s c).2 = .started s.nextRenderer i.stream ∧
      (createViewLocalVideoStart s c).1.nextRenderer = s.nextRenderer + 1 ∧
      createViewLocalVideoStart (createViewLocalVideoStart s c).1 c
        = ((createViewLocalVideoStart s c).1, .earlyReturn)) := by
  refine ⟨?_, ?_, ?_, ?_, ?_⟩
  · intro s c p sid i hl hst
    rcases hst with h | h | h <;> simp [createViewRemoteVideoStart, hl, h]
  · intro s c i hl hst
    rcases hst with h | h | h <;> simp [createViewLocalVideoStart, hl, h]
  · intro s k i hl hst
    rcases hst with h | h | h <;> simp [createViewUnparentedVideoStart, hl, h]
  · intro s c p sid i hl hst
    have hstep : createViewRemoteVideoStart s c p sid
        = ({ s with
              remoteReg := upsert (c, p, sid)
                { stream := i.stream, status := .rendering, renderer := none } s.remoteReg
              nextRenderer := s.nextRenderer + 1 },
            .started s.nextRenderer i.stream) := by
      simp [createViewRemoteVideoStart, hl, hst]
    rw [hstep]
    refine ⟨rfl, rfl, ?_⟩
    simp [createViewRemoteVideoStart, lookupK_upsert_self]
  · intro s c i hl hst
    have hstep : createViewLocalVideoStart s c
        = ({ s with
              localReg := upsert c
                { stream := i.stream, status := .rendering, renderer := some s.nextRenderer }
                s.localReg
              nextRenderer := s.nextRenderer + 1 },
            .started s.nextRenderer i.stream) := by
      simp [createViewLocalVideoStart, hl, hst]
    rw [hstep]
    refine ⟨rfl, rfl, ?_⟩
    simp [createViewLocalVideoStart, lookupK_upsert_self]

/-- Witness state for C4: call "c1" has a Rendered remote entry for
participant "p1" stream 3 and a NotRendered local entry. -/
def c4W0 : SysState :=
  { emptyState with
      remoteReg := [(("c1", "p1", 3), ⟨3, .rendered, some 4⟩)]
      localReg := [("c1", ⟨7, .notRendered, none⟩)] }

/-- C4 witness: the no-op conjunct applied to a Rendered remote entry and the
rapid-succession conjunct applied to a NotRendered local entry. -/
theorem C4_busy_key_create_is_noop_witness :
    createViewRemoteVideoStart c4W0 "c1" "p1" 3 = (c4W0, .earlyReturn) ∧
    createViewLocalVideoStart (createViewLocalVideoStart c4W0 "c1").1 "c1"
      = ((createViewLocalVideoStart c4W0 "c1").1, .earlyReturn) :=
  ⟨C4_busy_key_create_is_noop.1 c4W0 "c1" "p1" 3 ⟨3, .rendered, some 4⟩ (by decide)
      (Or.inl (by decide)),
    (C4_busy_key_create_is_noop.2.2.2.2 c4W0 "c1" ⟨7, .notRendered, none⟩ (by decide)
      (by decide)).2.2⟩

/-- C5: a remote-in-call createView that finds a NotRendered entry constructs
a renderer, writes Rendering with no handle and suspends; when it resumes
successfully and the entry is still present with a status other than
Stopping, it commits status Rendered with the renderer handle, publishes the
view at (callId, participantKey, streamId) in the State Store, and returns
the (renderer, view) pair. -/
theorem C5_remote_success_commits_and_publishes :
    (∀ s c p sid i, lookupK (c, p, sid) s.remoteReg = some i → i.status = .notRendered →
      createViewRemoteVideoStart s c p sid
        = ({ s with
              remoteReg := upsert (c, p, sid)
                { stream := i.stream, status := .rendering, renderer := none } s.remoteReg
              nextRenderer := s.nextRenderer + 1 },
            .started s.nextRenderer i.stream)) ∧
    (∀ s2 c p sid r st v i2, lookupK (c, p, sid) s2.remoteReg = some i2 →
      ¬ i2.status = .stopping →
      (createViewRemoteVideoFinish s2 c p sid r st true v).2 = .ok (some (r, v)) ∧
      lookupK (c, p, sid) (createViewRemoteVideoFinish s2 c p sid r st true v).1.remoteReg
        = some ⟨i2.stream, .rendered, some r⟩ ∧
      lookupK (c, p, sid)
          (createViewRemoteVideoFinish s2 c p sid r st true v).1.store.remoteViews
        = some v) := by
  constructor
  · intro s c p sid i hl hst
    simp [createViewRemoteVideoStart, hl, hst]
  · intro s2 c p sid r st v i2 hl hne
    refine ⟨?_, ?_, ?_⟩
    · simp [createViewRemoteVideoFinish, hl, hne]
    · simp [createViewRemoteVideoFinish, hl, hne, lookupK_upsert_self]
    · simp [createViewRemoteVideoFinish, hl, hne, setRemoteVideoStreamRendererView,
        lookupK_upsert_self]

/-- Witness state for C5. -/
def c5W0 : SysState :=
  { emptyState with remoteReg := [(("c1", "p1", 3), ⟨3, .notRendered, none⟩)] }

/-- Witness state for C5's commit phase: the entry as left by the start
phase. -/
def c5W1 : SysState :=
  { emptyState with
      remoteReg := [(("c1", "p1", 3), ⟨3, .rendering, none⟩)], nextRenderer := 1 }

/-- C5 witness: both conjuncts applied at the scenario of the spec
(callId "c1", participant "p1", stream 3). -/
theorem C5_remote_success_commits_and_publishes_witness :
    createViewRemoteVideoStart c5W0 "c1" "p1" 3
      = ({ c5W0 with
            remoteReg := upsert ("c1", "p1", 3)
              { stream := 3, status := .rendering, renderer := none } c5W0.remoteReg
            nextRenderer := 1 },
          .started 0 3) ∧
    (createViewRemoteVideoFinish c5W1 "c1" "p1" 3 0 3 true 99).2 = .ok (some (0, 99)) ∧
    lookupK ("c1", "p1", 3)
        (createViewRemoteVideoFinish c5W1 "c1" "p1" 3 0 3 true 99).1.store.remoteViews
      = some 99 :=
  ⟨C5_remote_success_commits_and_publishes.1 c5W0 "c1" "p1" 3 ⟨3, .notRendered, none⟩
      (by decide) (by decide),
    (C5_remote_success_commits_and_publishes.2 c5W1 "c1" "p1" 3 0 3 99
      ⟨3, .rendering, none⟩ (by decide) (by decide)).1,
    (C5_remote_success_commits_and_publishes.2 c5W1 "c1" "p1" 3 0 3 99
      ⟨3, .rendering, none⟩ (by decide) (by decide)).2.2⟩

/-- C6: when the suspended renderer creation throws, every createView variant
propagates the failure to its caller and leaves the Registry ready for a
retry: the remote and local entries are rewritten to NotRendered with no
renderer handle (from the captured stream reference), the unparented entry
is deleted outright, and neither the State Store nor the dispose log is
touched. -/
theorem C6_create_failure_reverts_registry :
    (∀ s c p sid r st v,
      (createViewRemoteVideoFinish s c p sid r st false v).2 = .error () ∧
      lookupK (c, p, sid) (createViewRemoteVideoFinish s c p sid r st false v).1.remoteReg
        = some ⟨st, .notRendered, none⟩ ∧
      (createViewRemoteVideoFinish s c p sid r st false v).1.store = s.store ∧
      (createViewRemoteVideoFinish s c p sid r st false v).1.disposeLog = s.disposeLog) ∧
    (∀ s c r st v,
      (createViewLocalVideoFinish s c r st false v).2 = .error () ∧
      lookupK c (createViewLocalVideoFinish s c r st false v).1.localReg
        = some ⟨st, .notRendered, none⟩ ∧
      (createViewLocalVideoFinish s c r st false v).1.store = s.store ∧
      (createViewLocalVideoFinish s c r st false v).1.disposeLog = s.disposeLog) ∧
    (∀ s k r sdk v,
      (createViewUnparentedVideoFinish s k r sdk false v).2 = .error () ∧
      lookupK k (createViewUnparentedVideoFinish s k r sdk false v).1.unparentedReg = none ∧
      (createViewUnparentedVideoFinish s k r sdk false v).1.store = s.store ∧
      (createViewUnparentedVideoFinish s k r sdk false v).1.disposeLog = s.disposeLog) := by
  refine ⟨?_, ?_, ?_⟩
  · intro s c p sid r st v
    exact ⟨rfl, lookupK_upsert_self _ _ _, rfl, rfl⟩
  · intro s c r st v
    exact ⟨rfl, lookupK_upsert_self _ _ _, rfl, rfl⟩
  · intro s k r sdk v
    exact ⟨rfl, lookupK_eraseK_self _ _, rfl, rfl⟩

/-- C7: an invalid combination of call, participant and stream identifiers —
any combination outside the three listed by the claim — is recognised by the
shared dispatch conditionals; both public entry points then warn and return
synchronously with an empty result, mutating neither the Registry nor the
State Store. -/
theorem C7_invalid_combination_fails_fast :
    (∀ s callId participantId stream,
      classifyViewRequest callId participantId stream = .invalid →
        createViewStart s callId participantId stream = (s, .invalidWarned) ∧
        disposeView s callId participantId stream = (s, .invalidWarned)) ∧
    (∀ callId participantId stream,
      classifyViewRequest callId participantId stream = .invalid ↔
        ¬ claimedValidCombination callId participantId stream) := by
  constructor
  · intro s callId participantId stream h
    exact ⟨by simp [createViewStart, h], by simp [disposeView, h]⟩
  · intro callId participantId stream
    cases stream with
    | remoteS sid =>
      cases htc : truthy callId <;> cases htp : truthy participantId <;>
        simp [classifyViewRequest, claimedValidCombination, StreamArg.hasId, htc, htp]
    | localS k =>
      cases htc : truthy callId <;>
        simp [classifyViewRequest, claimedValidCombination, StreamArg.hasId, htc]

/-- C7 witness: a remote stream with a call identifier but no participant
identifier (the claim's own example of an invalid combination) is rejected
by both entry points without touching the state. -/
theorem C7_invalid_combination_fails_fast_witness :
    createViewStart emptyState (some "c1") none (.remoteS 3)
      = (emptyState, .invalidWarned) ∧
    disposeView emptyState (some "c1") none (.remoteS 3)
      = (emptyState, .invalidWarned) :=
  C7_invalid_combination_fails_fast.1 emptyState (some "c1") none (.remoteS 3) (by decide)

/-- C9: over any sequence of getDeviceManager calls, the first call caches
the SDK instance and a freshly built declarative wrapper (identity 0) and
returns it; every later call returns that same cached wrapper when the SDK
returns the identical instance, and raises the fatal
configuration-mismatch error — without recovering or re-caching — whenever
the SDK returns a different instance from the one seen first. -/
theorem C9_device_manager_singleton :
    ∀ first rest, runGetDeviceManager initProxyDM (first :: rest)
      = .ok (some 0) :: rest.map (fun r => if r = first then .ok (some 0) else .error ()) := by
  intro first rest
  have hsteady : ∀ rs, runGetDeviceManager
      { sdkDeviceManager := some first, deviceManager := some 0, nextWrapper := 1 } rs
      = rs.map (fun r => if r = first then .ok (some 0) else .error ()) := by
    intro rs
    induction rs with
    | nil => rfl
    | cons r rs ih =>
      by_cases h : r = first
      · simp [runGetDeviceManager, getDeviceManagerTrap, h, ih]
      · simp [runGetDeviceManager, getDeviceManagerTrap, h, ih]
  simp [runGetDeviceManager, getDeviceManagerTrap, initProxyDM, hsteady]

/-- Witness state for C10: call "c1" holds a Rendered local entry and a
published local view. -/
def c10W0 : SysState :=
  { emptyState with
      localReg := [("c1", ⟨7, .rendered, some 2⟩)]
      store := { remoteViews := [], localViews := [("c1", 42)], unparentedViews := [] } }

/-- C10: a disposeView request classified as local-in-call (truthy callId,
stream without an id) ignores the stream argument entirely — any two
LocalVideoStreamState values produce identical results — because the
dispatcher forwards only the callId to disposeViewLocalVideo; and that
disposal always clears the call's local view from the State Store. -/
theorem C10_local_dispose_ignores_stream :
    ∀ s c participantId k1 k2, ¬ c = "" →
      disposeView s (some c) participantId (.localS k1)
        = disposeView s (some c) participantId (.localS k2) ∧
      disposeView s (some c) participantId (.localS k1)
        = (disposeViewLocalVideo s c, .handled) ∧
      lookupK c (disposeViewLocalVideo s c).store.localViews = none := by
  intro s c pid k1 k2 hc
  have hclass : ∀ k : Nat, classifyViewRequest (some c) pid (.localS k) = .localInCall c := by
    intro k
    simp [classifyViewRequest, truthy, hc]
  refine ⟨by simp [disposeView, hclass], by simp [disposeView, hclass], ?_⟩
  cases hl : lookupK c s.localReg with
  | none =>
    simp [disposeViewLocalVideo, hl, setLocalVideoStreamRendererView, lookupK_eraseK_self]
  | some ri =>
    cases hr : ri.renderer with
    | none =>
      by_cases h1 : ri.status = .rendering <;>
        simp [disposeViewLocalVideo, hl, hr, h1, setLocalVideoStreamRendererView,
          lookupK_eraseK_self]
    | some rr =>
      by_cases h1 : ri.status = .rendering <;>
        simp [disposeViewLocalVideo, hl, hr, h1, setLocalVideoStreamRendererView,
          lookupK_eraseK_self]

/-- C10 witness: the theorem applied at a concrete state with two different
local stream values. -/
theorem C10_local_dispose_ignores_stream_witness :
    disposeView c10W0 (some "c1") none (.localS 7)
      = disposeView c10W0 (some "c1") none (.localS 8) ∧
    disposeView c10W0 (some "c1") none (.localS 7)
      = (disposeViewLocalVideo c10W0 "c1", .handled) ∧
    lookupK "c1" (disposeViewLocalVideo c10W0 "c1").store.localViews = none :=
  C10_local_dispose_ignores_stream c10W0 "c1" none 7 8 (by decide)

/-- The status written by the dispose protocol: Stopping when the entry was
mid-render, NotRendered otherwise. -/
def disposeStatusTransition (st : RenderStatus) : RenderStatus :=
  if st = .rendering then .stopping else .notRendered

theorem disposeViewRemoteVideo_spec (s : SysState) (c p : String) (sid : Nat) (i : RenderInfo)
    (hl : lookupK (c, p, sid) s.remoteReg = some i) :
    disposeViewRemoteVideo s c p sid
      = { s with
          remoteReg := upsert (c, p, sid)
            { stream := i.stream, status := disposeStatusTransition i.status, renderer := none }
            s.remoteReg
          store := setRemoteVideoStreamRendererView s.store c p sid none
          disposeLog := s.disposeLog ++ i.renderer.toList } := by
  cases hr : i.renderer with
  | none =>
    by_cases h1 : i.status = .rendering <;>
      simp [disposeViewRemoteVideo, hl, hr, h1, disposeStatusTransition]
  | some rr =>
    by_cases h1 : i.status = .rendering <;>
      simp [disposeViewRemoteVideo, hl, hr, h1, disposeStatusTransition]

theorem disposeViewLocalVideo_spec (s : SysState) (c : String) (i : RenderInfo)
    (hl : lookupK c s.localReg = some i) :
    disposeViewLocalVideo s c
      = { s with
          localReg := upsert c
            { stream := i.stream, status := disposeStatusTransition i.status, renderer := none }
            s.localReg
          store := setLocalVideoStreamRendererView s.store c none
          disposeLog := s.disposeLog ++ i.renderer.toList } := by
  cases hr : i.renderer with
  | none =>
    by_cases h1 : i.status = .rendering <;>
      simp [disposeViewLocalVideo, hl, hr, h1, disposeStatusTransition]
  | some rr =>
    by_cases h1 : i.status = .rendering <;>
      simp [disposeViewLocalVideo, hl, hr, h1, disposeStatusTransition]

/-- The remote loop of `disposeAllViewsFromCall` over an explicit entry
list. -/
def disposeRemoteList (c : String) (l : List ((String × String × Nat) × RenderInfo))
    (acc : SysState) : SysState :=
  l.foldl (fun a kv => (disposeView a (some c) (some kv.1.2.1) (.remoteS kv.2.stream)).1) acc

theorem disposeAllRemotePhase_eq (s : SysState) (c : String) :
    disposeAllRemotePhase s c
      = disposeRemoteList c (s.remoteReg.filter (fun kv => kv.1.1 = c)) s := rfl

theorem disposeRemoteList_spec (c : String) (hc : ¬ c = "") :
    ∀ (l : List ((String × String × Nat) × RenderInfo)) (acc : SysState),
      (∀ kv ∈ l, kv.1.1 = c ∧ ¬ kv.1.2.1 = "" ∧ kv.2.stream = kv.1.2.2 ∧
        lookupK kv.1 acc.remoteReg = some kv.2) →
      (keysOf l).Nodup →
      (∀ kv ∈ l, lookupK kv.1 (disposeRemoteList c l acc).remoteReg
          = some ⟨kv.2.stream, disposeStatusTransition kv.2.status, none⟩) ∧
      (∀ k, (∀ kv ∈ l, kv.1 ≠ k) →
        lookupK k (disposeRemoteList c l acc).remoteReg = lookupK k acc.remoteReg) ∧
      (disposeRemoteList c l acc).localReg = acc.localReg ∧
      (disposeRemoteList c l acc).unparentedReg = acc.unparentedReg ∧
      (disposeRemoteList c l acc).nextRenderer = acc.nextRenderer ∧
      (disposeRemoteList c l acc).disposeLog
        = acc.disposeLog ++ l.filterMap (fun kv => kv.2.renderer) := by
  intro l
  induction l with
  | nil =>
    intro acc hmem hnd
    exact ⟨by simp, fun k _ => rfl, rfl, rfl, rfl, by simp [disposeRemoteList]⟩
  | cons hd tl ih =>
    intro acc hmem hnd
    obtain ⟨⟨kc, kp, ksid⟩, info⟩ := hd
    obtain ⟨hcall, hp, hstream, hlook⟩ := hmem _ (List.mem_cons_self _ _)
    simp only at hcall hp hstream hlook
    subst hcall
    subst hstream
    simp only [keysOf, List.map_cons, List.nodup_cons] at hnd
    have hclass : classifyViewRequest (some kc) (some kp) (.remoteS info.stream)
        = .remoteInCall kc kp info.stream := by
      simp [classifyViewRequest, truthy, hc, hp]
    have hstep : (disposeView acc (some kc) (some kp) (.remoteS info.stream)).1
        = { acc with
            remoteReg := upsert (kc, kp, info.stream)
              { stream := info.stream, status := disposeStatusTransition info.status,
                renderer := none } acc.remoteReg
            store := setRemoteVideoStreamRendererView acc.store kc kp info.stream none
            disposeLog := acc.disposeLog ++ info.renderer.toList } := by
      simp only [disposeView, hclass]
      exact disposeViewRemoteVideo_spec acc kc kp info.stream info hlook
    have hlist : disposeRemoteList kc (((kc, kp, info.stream), info) :: tl) acc
        = disposeRemoteList kc tl ((disposeView acc (some kc) (some kp)
            (.remoteS info.stream)).1) := rfl
    have htlne : ∀ kv ∈ tl, kv.1 ≠ (kc, kp, info.stream) := by
      intro kv hm he
      exact hnd.1 (he ▸ List.mem_map_of_mem Prod.fst hm)
    have hmem2 : ∀ kv ∈ tl, kv.1.1 = kc ∧ ¬ kv.1.2.1 = "" ∧ kv.2.stream = kv.1.2.2 ∧
        lookupK kv.1 ((disposeView acc (some kc) (some kp)
          (.remoteS info.stream)).1).remoteReg = some kv.2 := by
      intro kv hm
      obtain ⟨h1, h2, h3, h4⟩ := hmem kv (List.mem_cons_of_mem _ hm)
      refine ⟨h1, h2, h3, ?_⟩
      rw [hstep]
      simpa [lookupK_upsert_ne _ (htlne kv hm)] using h4
    obtain ⟨ih1, ih2, ih3, ih4, ih5, ih6⟩ := ih _ hmem2 hnd.2
    rw [hlist]
    refine ⟨?_, ?_, ?_, ?_, ?_, ?_⟩
    · intro kv hm
      rcases List.mem_cons.1 hm with h1 | h1
      · subst h1
        rw [ih2 _ htlne, hstep]
        simpa using lookupK_upsert_self (kc, kp, info.stream) _ acc.remoteReg
      · exact ih1 kv h1
    · intro k hk
      rw [ih2 k (fun kv hm => hk kv (List.mem_cons_of_mem _ hm)), hstep]
      have hne : (kc, kp, info.stream) ≠ k := hk _ (List.mem_cons_self _ _)
      simpa using lookupK_upsert_ne _ (fun he => hne he.symm) acc.remoteReg
    · rw [ih3, hstep]
    · rw [ih4, hstep]
    · rw [ih5, hstep]
    · rw [ih6, hstep]
      cases hr : info.renderer with
      | none => simp [hr, List.filterMap_cons]
      | some rr => simp [hr, List.filterMap_cons]

/-- Counterexample state for C8: call "c1" has one rendered remote stream
tracked in the Registry. -/
def c8S0 : SysState :=
  { emptyState with remoteReg := [(("c1", "p1", 3), ⟨3, .rendered, some 4⟩)] }

/-- C8 counterexample: bulk disposal disposes the held renderer (dispose log
[4]) but the Registry entry for the call remains, rewritten to NotRendered
— `disposeViewRemoteVideo` upserts, it never deletes — so the claim that
zero Registry entries remain for the call is false. -/
theorem C8_counterexample_entries_remain :
    (disposeAllViewsFromCall c8S0 "c1").disposeLog = [4] ∧
    lookupK ("c1", "p1", 3) (disposeAllViewsFromCall c8S0 "c1").remoteReg
      = some ⟨3, .notRendered, none⟩ ∧
    ¬ claimedNoCallEntriesRemain (disposeAllViewsFromCall c8S0 "c1") "c1" := by
  exact ⟨by decide, by decide, by decide⟩

/-- C8 (amended): for a call with well-formed tracked entries (unique keys,
truthy participant keys, stream handles matching their key), bulk disposal
applies the dispose protocol to every tracked remote entry, and to the local
entry only when it holds a renderer handle; afterwards every remote entry of
the call remains present with its renderer cleared and its status moved by
the dispose transition (Stopping if it was Rendering, NotRendered
otherwise), the local entry likewise when it held a renderer and untouched
when it did not, and the dispose log is extended by exactly the renderer
handles held by the call's entries, one occurrence per holding entry — so
each held renderer is disposed at most once by the bulk call. -/
theorem C8_bulk_dispose_amended :
    ∀ s c, ¬ c = "" →
      (keysOf s.remoteReg).Nodup →
      (∀ kv ∈ s.remoteReg, kv.1.1 = c → (¬ kv.1.2.1 = "" ∧ kv.2.stream = kv.1.2.2)) →
      (∀ kv ∈ s.remoteReg, kv.1.1 = c →
        lookupK kv.1 (disposeAllViewsFromCall s c).remoteReg
          = some ⟨kv.2.stream, disposeStatusTransition kv.2.status, none⟩) ∧
      (∀ i, lookupK c s.localReg = some i →
        (i.renderer = none → lookupK c (disposeAllViewsFromCall s c).localReg = some i) ∧
        (∀ r, i.renderer = some r → lookupK c (disposeAllViewsFromCall s c).localReg
          = some ⟨i.stream, disposeStatusTransition i.status, none⟩)) ∧
      (disposeAllViewsFromCall s c).disposeLog
        = s.disposeLog
          ++ (s.remoteReg.filter (fun kv => kv.1.1 = c)).filterMap (fun kv => kv.2.renderer)
          ++ (match lookupK c s.localReg with
              | some i => i.renderer.toList
              | none => []) := by
  intro s c hc hnd hwf
  have hmem : ∀ kv ∈ s.remoteReg.filter (fun kv => kv.1.1 = c),
      kv.1.1 = c ∧ ¬ kv.1.2.1 = "" ∧ kv.2.stream = kv.1.2.2 ∧
      lookupK kv.1 s.remoteReg = some kv.2 := by
    intro kv hm
    have h1 := List.mem_filter.1 hm
    have hcc : kv.1.1 = c := by simpa using h1.2
    obtain ⟨h2, h3⟩ := hwf kv h1.1 hcc
    exact ⟨hcc, h2, h3, lookupK_of_mem hnd h1.1⟩
  have hndf : (keysOf (s.remoteReg.filter (fun kv => kv.1.1 = c))).Nodup :=
    List.Nodup.sublist (List.Sublist.map Prod.fst (List.filter_sublist s.remoteReg)) hnd
  obtain ⟨hf1, hf2, hf3, hf4, hf5, hf6⟩ :=
    disposeRemoteList_spec c hc (s.remoteReg.filter (fun kv => kv.1.1 = c)) s hmem hndf
  have hloc : (disposeAllRemotePhase s c).localReg = s.localReg := by
    rw [disposeAllRemotePhase_eq]
    exact hf3
  cases hll : lookupK c s.localReg with
  | none =>
    have hall : disposeAllViewsFromCall s c = disposeAllRemotePhase s c := by
      simp only [disposeAllViewsFromCall, hloc, hll]
    refine ⟨?_, ?_, ?_⟩
    · intro kv hm hcall
      rw [hall, disposeAllRemotePhase_eq]
      exact hf1 kv (List.mem_filter.2 ⟨hm, by simpa using hcall⟩)
    · intro i hi
      cases hi
    · rw [hall, disposeAllRemotePhase_eq, hf6]
      simp
  | some i =>
    have hlook1 : lookupK c (disposeAllRemotePhase s c).localReg = some i := by
      rw [hloc]
      exact hll
    cases hri : i.renderer with
    | none =>
      have hall : disposeAllViewsFromCall s c = disposeAllRemotePhase s c := by
        simp only [disposeAllViewsFromCall, hlook1, hri]
      refine ⟨?_, ?_, ?_⟩
      · intro kv hm hcall
        rw [hall, disposeAllRemotePhase_eq]
        exact hf1 kv (List.mem_filter.2 ⟨hm, by simpa using hcall⟩)
      · intro i2 hi2
        injection hi2 with he
        subst he
        refine ⟨fun _ => ?_, fun r hr => ?_⟩
        · rw [hall, hloc]
          exact hll
        · rw [hri] at hr
          cases hr
      · rw [hall, disposeAllRemotePhase_eq, hf6]
        simp [hri]
    | some r =>
      have hclass2 : classifyViewRequest (some c) none (.localS i.stream) = .localInCall c := by
        simp [classifyViewRequest, truthy, hc]
      have hall : disposeAllViewsFromCall s c
          = disposeViewLocalVideo (disposeAllRemotePhase s c) c := by
        simp only [disposeAllViewsFromCall, hlook1, hri, disposeView, hclass2]
      have hlv := disposeViewLocalVideo_spec (disposeAllRemotePhase s c) c i hlook1
      refine ⟨?_, ?_, ?_⟩
      · intro kv hm hcall
        rw [hall, hlv]
        show lookupK kv.1 (disposeAllRemotePhase s c).remoteReg = _
        rw [disposeAllRemotePhase_eq]
        exact hf1 kv (List.mem_filter.2 ⟨hm, by simpa using hcall⟩)
      · intro i2 hi2
        injection hi2 with he
        subst he
        refine ⟨fun h0 => ?_, fun r2 hr2 => ?_⟩
        · rw [hri] at h0
          cases h0
        · rw [hall, hlv]
          show lookupK c (upsert c _ (disposeAllRemotePhase s c).localReg) = _
          exact lookupK_upsert_self c _ _
      · rw [hall, hlv]
        show (disposeAllRemotePhase s c).disposeLog ++ i.renderer.toList = _
        rw [disposeAllRemotePhase_eq, hf6]

/-- Witness state for the amended C8: call "c1" tracks a rendered and a
mid-render remote stream and a rendered local stream. -/
def c8W1 : SysState :=
  { emptyState with
      remoteReg := [(("c1", "p1", 3), ⟨3, .rendered, some 4⟩),
        (("c1", "p2", 5), ⟨5, .rendering, none⟩)]
      localReg := [("c1", ⟨7, .rendered, some 6⟩)] }

/-- C8 witness: the amended bulk-dispose theorem applied at a concrete call,
yielding the exact dispose-log extension (renderer 4 from the rendered
remote entry, renderer 6 from the local entry, each once). -/
theorem C8_bulk_dispose_amended_witness :
    (disposeAllViewsFromCall c8W1 "c1").disposeLog
      = c8W1.disposeLog
        ++ (c8W1.remoteReg.filter (fun kv => kv.1.1 = "c1")).filterMap
            (fun kv => kv.2.renderer)
        ++ (match lookupK "c1" c8W1.localReg with
            | some i => i.renderer.toList
            | none => []) :=
  (C8_bulk_dispose_amended c8W1 "c1" (by decide) (by decide) (by decide)).2.2
